import Mathlib

/-!
Verification of the `futility` crate's two core primitives.

* `Terminate` (src/src/terminate.rs): a lifecycle controller that sequences an
  optional install phase and a main phase, applying an optional error-transform
  hook (`on_error`) and an optional exit hook (`at_exit`) to each phase, and
  optionally chaining a process-wide panic hook (`panic_with`).
* `try_` (src/futility-try-catch/src/lib.rs): a scoped try/catch expression
  that runs a try region as an immediately-invoked fallible unit and, on
  failure, evaluates a catch region with the error bound.

Side effects are made observable by having every operation emit a trace of
events; routines with no interesting return value are represented by the
trace they emit when invoked.
-/

namespace Futility

/-- Observable events emitted while `Terminate.execute` runs: the install
routine being called, the main routine being called, the exit hook being
called (tagged with the identity `A` of the configured exit routine), and the
error-transform hook being applied to an error. -/
inductive Event (E : Type) (A : Type) where
  | installCalled : Event E A
  | mainCalled : Event E A
  | exitHookCalled : A → Event E A
  | onErrorCalled : E → Event E A
  deriving DecidableEq, Repr

/-- The `Terminate` configuration record, mirroring the Rust struct
(src/src/terminate.rs lines 13-21): `at_exit : Option<fn()>` (modelled by the
identity `A` of the routine), `on_error : Option<fn(E) -> E>`, and
`install : Option<fn() -> Result<(), E>>` (a zero-argument routine is
determined by the result it returns, modelled as `Except E Unit`). -/
structure Terminate (E : Type) (A : Type) where
  at_exit : Option A
  on_error : Option (E → E)
  install : Option (Except E Unit)

variable {E A : Type}

/-- `Terminate::new`: all hooks unset. -/
def Terminate.new : Terminate E A :=
  Terminate.mk none none none

/-- Builder method `Terminate::install` (the prime avoids clashing with the
field of the same name): sets the install routine, returning the updated
configuration. -/
def Terminate.install' (t : Terminate E A) (install : Except E Unit) : Terminate E A :=
  Terminate.mk t.at_exit t.on_error (some install)

/-- Builder method `Terminate::on_error`: sets the error-transform hook. -/
def Terminate.on_error' (t : Terminate E A) (on_error : E → E) : Terminate E A :=
  Terminate.mk t.at_exit (some on_error) t.install

/-- Builder method `Terminate::at_exit`: sets the exit hook. -/
def Terminate.at_exit' (t : Terminate E A) (at_exit : A) : Terminate E A :=
  Terminate.mk (some at_exit) t.on_error t.install

/-- The common tail of each phase of `Terminate::execute` (lines 86-92 and
98-104 of src/src/terminate.rs, which are textually identical): given the
phase routine's result, apply `on_error` to an error (emitting an
`onErrorCalled` event at the point of application), then invoke `at_exit` if
configured (emitting an `exitHookCalled` event). Returns the events emitted,
in order, and the (possibly transformed) result. -/
def Terminate.phaseWrap (t : Terminate E A) (res : Except E Unit) :
    List (Event E A) × Except E Unit :=
  let step : List (Event E A) × Except E Unit :=
    match t.on_error, res with
    | some on_error, Except.error err =>
        (([Event.onErrorCalled err] : List (Event E A)), Except.error (on_error err))
    | _, res => ([], res)
  let exitEvs : List (Event E A) :=
    match t.at_exit with
    | some a => [Event.exitHookCalled a]
    | none => []
  (step.1 ++ exitEvs, step.2)

/-- `Terminate::execute` (src/src/terminate.rs lines 84-107). If an install
routine is configured it is invoked, its error (if any) is transformed by
`on_error`, the exit hook is invoked if configured, and an error is returned
immediately (the `res?` early return). Otherwise the main routine is invoked
and wrapped the same way, and its result is returned. The first component is
the trace of events, in order; the second the returned result. -/
def Terminate.execute (t : Terminate E A) (main : Except E Unit) :
    List (Event E A) × Except E Unit :=
  match t.install with
  | some install =>
      let wrapped := t.phaseWrap install
      match wrapped.2 with
      | Except.error e => (Event.installCalled :: wrapped.1, Except.error e)
      | Except.ok _ =>
          let mainWrapped := t.phaseWrap main
          (Event.installCalled :: wrapped.1 ++ Event.mainCalled :: mainWrapped.1,
            mainWrapped.2)
  | none =>
      let mainWrapped := t.phaseWrap main
      (Event.mainCalled :: mainWrapped.1, mainWrapped.2)

/-- Whether an event is an invocation of the exit hook. -/
def isExitEvent : Event E A → Bool
  | Event.exitHookCalled _ => true
  | _ => false

/-- Number of exit-hook invocations recorded in a trace. -/
def exitCount (tr : List (Event E A)) : Nat :=
  tr.countP isExitEvent

/-- The exit-hook events one phase emits: one invocation when the hook is
configured, none otherwise. -/
def exitEvsOf (t : Terminate E A) : List (Event E A) :=
  match t.at_exit with
  | some a => [Event.exitHookCalled a]
  | none => []

/-- Apply an optional error-transform hook to an error: the transformed error
when the hook is set, the original error unchanged when it is unset. -/
def transformWith (on_error : Option (E → E)) (e : E) : E :=
  match on_error with
  | some f => f e
  | none => e

/-- Whether the configured install routine is present and returns an error. -/
def installFails (t : Terminate E A) : Bool :=
  match t.install with
  | some (Except.error _) => true
  | _ => false

/-- One operation of a try region: the effects it performs (a trace over an
alphabet `Ev`), followed by either success (`fails = none`) or failure with an
error (`fails = some e`), at which point the `?` operator aborts the enclosing
fallible unit. -/
structure Op (E : Type) (Ev : Type) where
  effects : List Ev
  fails : Option E

variable {Ev V : Type}

/-- The effects of a list of operations run in order, assuming all run. -/
def effectsOf : List (Op E Ev) → List Ev
  | [] => []
  | op :: rest => op.effects ++ effectsOf rest

/-- The try region run as the body of the immediately-invoked fallible unit
the `try_` macro expands to: `|| -> Result<_, E> { Ok({ ...ops...; v }) }()`.
Operations run in order; the first failure aborts the unit with its error
(later operations never run); if all succeed the unit yields `Ok v`. Returns
the effects performed and the unit's result. -/
def tryBlockRun : List (Op E Ev) → V → List Ev × Except E V
  | [], v => ([], Except.ok v)
  | op :: rest, v =>
      match op.fails with
      | some e => (op.effects, Except.error e)
      | none =>
          let r := tryBlockRun rest v
          (op.effects ++ r.1, r.2)

/-- The `try_` macro's expansion (src/futility-try-catch/src/lib.rs lines
106-122): match the immediately-invoked fallible unit's result; on `Ok(ret)`
yield `ret`; on `Err(err)` evaluate the catch block with `err` bound to the
declared identifier and yield its value. The catch region is a function from
the bound error to the effects it performs and its final value. -/
def try_ (ops : List (Op E Ev)) (v : V) (catchBlock : E → List Ev × V) :
    List Ev × V :=
  match tryBlockRun ops v with
  | (evs, Except.ok ret) => (evs, ret)
  | (evs, Except.error err) =>
      let c := catchBlock err
      (evs ++ c.1, c.2)

/-- The process-wide panic-hook slot (`std::panic`'s global hook registration,
as used by `Terminate::replace_panic` and `Terminate::panic_with`). A handler
maps the panic info `I` to the trace of observable effects it performs; the
default handler's diagnostics are not part of the observed alphabet, so the
default hook emits the empty trace. -/
structure PanicState (I : Type) (α : Type) where
  hook : I → List α

variable {I α : Type}

/-- `std::panic::set_hook`: replace the process-wide hook. -/
def setHook (h : I → List α) (_s : PanicState I α) : PanicState I α :=
  PanicState.mk h

/-- `std::panic::take_hook`: return the currently installed hook and reset the
slot to the default hook. -/
def takeHook (s : PanicState I α) : (I → List α) × PanicState I α :=
  (s.hook, PanicState.mk fun _ => [])

/-- `Terminate::replace_panic` (src/src/terminate.rs lines 44-48): install the
supplied routine as the process-wide hook, returning the controller unchanged
for chaining. -/
def Terminate.replace_panic (t : Terminate E A) (s : PanicState I α)
    (panic : I → List α) : Terminate E A × PanicState I α :=
  (t, setHook panic s)

/-- `Terminate::panic_with` (src/src/terminate.rs lines 52-59): take the
currently installed hook, and install a new hook that invokes the supplied
routine first and then the previously installed hook, returning the controller
unchanged for chaining. -/
def Terminate.panic_with (t : Terminate E A) (s : PanicState I α)
    (panic : I → List α) : Terminate E A × PanicState I α :=
  let taken := takeHook s
  let original_hook := taken.1
  let s' := taken.2
  (t, setHook (fun panic_info => panic panic_info ++ original_hook panic_info) s')

/-- Run the currently installed process-wide hook on a fault: the trace of
effects the fault handling performs. -/
def runFault (s : PanicState I α) (info : I) : List α :=
  s.hook info

end Futility

namespace Futility

variable {E A : Type}

theorem phaseWrap_ok (t : Terminate E A) :
    t.phaseWrap (Except.ok ()) = (exitEvsOf t, Except.ok ()) := by
  cases h : t.on_error <;> simp [Terminate.phaseWrap, exitEvsOf, h]

theorem phaseWrap_error (t : Terminate E A) (e : E) :
    t.phaseWrap (Except.error e)
      = ((match t.on_error with
          | some _ => [Event.onErrorCalled e]
          | none => []) ++ exitEvsOf t,
         Except.error (transformWith t.on_error e)) := by
  cases h : t.on_error <;> simp [Terminate.phaseWrap, exitEvsOf, transformWith, h]

theorem exitCount_exitEvsOf (t : Terminate E A) :
    exitCount (exitEvsOf t) = (if t.at_exit.isSome then 1 else 0) := by
  cases h : t.at_exit <;> simp [exitCount, exitEvsOf, isExitEvent, h]

theorem exitCount_append (l₁ l₂ : List (Event E A)) :
    exitCount (l₁ ++ l₂) = exitCount l₁ + exitCount l₂ := by
  simp [exitCount, List.countP_append]

variable {Ev V I α : Type}

theorem tryBlockRun_success (ops : List (Op E Ev)) (v : V)
    (h : ∀ op ∈ ops, op.fails = none) :
    tryBlockRun ops v = (effectsOf ops, (Except.ok v : Except E V)) := by
  induction ops with
  | nil => simp [tryBlockRun, effectsOf]
  | cons op rest ih =>
      have hop : op.fails = none := h op (List.mem_cons_self op rest)
      have hrest : ∀ o ∈ rest, o.fails = none :=
        fun o ho => h o (List.mem_cons_of_mem op ho)
      simp [tryBlockRun, hop, effectsOf, ih hrest]

theorem tryBlockRun_failure (pre post : List (Op E Ev)) (op : Op E Ev) (v : V)
    (e : E) (hpre : ∀ o ∈ pre, o.fails = none) (hop : op.fails = some e) :
    tryBlockRun (pre ++ op :: post) v
      = (effectsOf pre ++ op.effects, (Except.error e : Except E V)) := by
  induction pre with
  | nil => simp [tryBlockRun, hop, effectsOf]
  | cons p rest ih =>
      have hp : p.fails = none := hpre p (List.mem_cons_self p rest)
      have hrest : ∀ o ∈ rest, o.fails = none :=
        fun o ho => hpre o (List.mem_cons_of_mem p ho)
      simp [tryBlockRun, hp, effectsOf, ih hrest]

/-- C3: for every try region in which every operation succeeds, the `try_`
expression yields exactly the try region's effects and final value; the result
does not depend on the catch region at all (it is universally quantified and
absent from the right-hand side), so the catch region is never evaluated and
none of its side effects occur. -/
theorem try_success_yields_try_value (ops : List (Op E Ev)) (v : V)
    (catchBlock : E → List Ev × V) (h : ∀ op ∈ ops, op.fails = none) :
    try_ ops v catchBlock = (effectsOf ops, v) := by
  unfold try_
  rw [tryBlockRun_success ops v h]

/-- Witness for C3 at a concrete two-operation try region. -/
theorem try_success_yields_try_value_witness :
    try_ [Op.mk [1] (none : Option Nat), Op.mk [2] none] 5
        (fun e => ([9], e)) = ([1, 2], (5 : Nat)) :=
  try_success_yields_try_value _ 5 _ (by decide)

/-- C2: for every try region in which some operation fails with error `e`
(every operation before it succeeding), the `try_` expression evaluates the
catch region with `e` bound and yields the catch region's final value; the
trace contains only the effects of the operations up to and including the
failing one followed by the catch region's effects, so no operation after the
failing one executes; and the result is a plain value, so the failure does not
propagate past the expression. -/
theorem try_failure_runs_catch (pre post : List (Op E Ev)) (op : Op E Ev)
    (v : V) (catchBlock : E → List Ev × V) (e : E)
    (hpre : ∀ o ∈ pre, o.fails = none) (hop : op.fails = some e) :
    try_ (pre ++ op :: post) v catchBlock
      = (effectsOf pre ++ op.effects ++ (catchBlock e).1, (catchBlock e).2) := by
  unfold try_
  rw [tryBlockRun_failure pre post op v e hpre hop]

/-- Witness for C2: the second of three operations fails with error 7; the
third operation's effect 3 never occurs and the catch region runs with 7
bound. -/
theorem try_failure_runs_catch_witness :
    try_ [Op.mk [1] (none : Option Nat), Op.mk [2] (some 7), Op.mk [3] none] 5
        (fun e => ([e], e + 1)) = ([1, 2, 7], (8 : Nat)) := by
  have h := try_failure_runs_catch [Op.mk [1] (none : Option Nat)]
    [Op.mk [3] none] (Op.mk [2] (some 7)) 5 (fun e => ([e], e + 1)) 7
    (by decide) rfl
  simpa [effectsOf] using h

/-- C9: configuring a fault hook in chaining mode (`panic_with`) while a
previous process-wide handler is installed produces a handler that, on a
fault, performs the newly supplied hook's effects first and the previously
installed handler's effects second, in that order. -/
theorem panic_with_chains (t : Terminate E A) (s : PanicState I α)
    (panic : I → List α) (info : I) :
    runFault (t.panic_with s panic).2 info = panic info ++ runFault s info :=
  rfl

/-- C10: registering the install, on_error, or at_exit hook a second time on
the same controller replaces the previously registered hook (last write wins),
leaves every other configuration field unchanged, and a subsequent `execute`
behaves exactly as if only the last-registered hook had been set. -/
theorem builder_last_write_wins (t : Terminate E A) (f₁ f₂ : Except E Unit)
    (g₁ g₂ : E → E) (a₁ a₂ : A) (main : Except E Unit) :
    (t.install' f₁).install' f₂ = t.install' f₂
    ∧ (t.on_error' g₁).on_error' g₂ = t.on_error' g₂
    ∧ (t.at_exit' a₁).at_exit' a₂ = t.at_exit' a₂
    ∧ (t.install' f₁).on_error = t.on_error
    ∧ (t.install' f₁).at_exit = t.at_exit
    ∧ (t.on_error' g₁).install = t.install
    ∧ (t.on_error' g₁).at_exit = t.at_exit
    ∧ (t.at_exit' a₁).install = t.install
    ∧ (t.at_exit' a₁).on_error = t.on_error
    ∧ ((t.install' f₁).install' f₂).execute main = (t.install' f₂).execute main
    ∧ ((t.on_error' g₁).on_error' g₂).execute main = (t.on_error' g₂).execute main
    ∧ ((t.at_exit' a₁).at_exit' a₂).execute main = (t.at_exit' a₂).execute main :=
  ⟨rfl, rfl, rfl, rfl, rfl, rfl, rfl, rfl, rfl, rfl, rfl, rfl⟩

/-- C1 (amended): if an install routine is set and returns an error, `execute`
never invokes the main routine, invokes the exit hook exactly once when an
exit hook is configured (and not at all when none is), and returns the install
error, transformed by the error-transform hook when one is set. -/
theorem install_error_skips_main (t : Terminate E A) (main : Except E Unit)
    (e : E) (h : t.install = some (Except.error e)) :
    Event.mainCalled ∉ (t.execute main).1
    ∧ (t.at_exit.isSome → exitCount (t.execute main).1 = 1)
    ∧ (t.at_exit = none → exitCount (t.execute main).1 = 0)
    ∧ (t.execute main).2 = Except.error (transformWith t.on_error e) := by
  obtain ⟨ae, oe, ins⟩ := t
  simp only [Terminate.install] at h
  subst h
  cases ae <;> cases oe <;>
    simp [Terminate.execute, Terminate.phaseWrap, exitCount, transformWith,
      isExitEvent, List.countP_cons]

/-- Witness for C1 (amended): install fails with error 3, exit hook 5 set, no
error transform. -/
theorem install_error_skips_main_witness :
    Event.mainCalled
        ∉ ((Terminate.mk (some 5) none (some (Except.error 3)) : Terminate Nat Nat).execute
            (Except.ok ())).1
    ∧ ((Terminate.mk (some 5) none (some (Except.error 3)) : Terminate Nat Nat).at_exit.isSome →
        exitCount (((Terminate.mk (some 5) none (some (Except.error 3)) : Terminate Nat Nat).execute
            (Except.ok ())).1) = 1)
    ∧ ((Terminate.mk (some 5) none (some (Except.error 3)) : Terminate Nat Nat).at_exit = none →
        exitCount (((Terminate.mk (some 5) none (some (Except.error 3)) : Terminate Nat Nat).execute
            (Except.ok ())).1) = 0)
    ∧ ((Terminate.mk (some 5) none (some (Except.error 3)) : Terminate Nat Nat).execute
          (Except.ok ())).2
        = Except.error (transformWith none 3) :=
  install_error_skips_main _ _ 3 rfl

/-- C1 as stated is false: with an install routine that fails and no exit hook
configured, the exit hook is invoked zero times, not exactly once. -/
theorem install_error_exit_hook_not_once :
    (Terminate.mk none none (some (Except.error 7)) : Terminate Nat Nat).install
        = some (Except.error 7)
    ∧ exitCount (((Terminate.mk none none (some (Except.error 7)) : Terminate Nat Nat).execute
          (Except.ok ())).1) ≠ 1 :=
  ⟨rfl, by decide⟩

/-- C4: in every single call to `execute`, the exit hook runs zero, one, or
two times; it never runs when no exit hook is configured, and when one is
configured it runs once after the install phase exactly when an install
routine is configured, plus once after the main phase exactly when the main
phase runs (always, unless install failed). -/
theorem exit_hook_zero_one_or_two (t : Terminate E A) (main : Except E Unit) :
    (exitCount (t.execute main).1 = 0 ∨ exitCount (t.execute main).1 = 1
      ∨ exitCount (t.execute main).1 = 2)
    ∧ (t.at_exit = none → exitCount (t.execute main).1 = 0)
    ∧ (t.at_exit.isSome →
        exitCount (t.execute main).1
          = (if t.install.isSome then 1 else 0)
              + (if installFails t then 0 else 1)) := by
  obtain ⟨ae, oe, ins⟩ := t
  cases ae <;> cases oe <;> rcases ins with _ | (e | u) <;> cases main <;>
    simp [Terminate.execute, Terminate.phaseWrap, exitCount, installFails,
      isExitEvent, List.countP_cons, List.countP_append]

/-- Witness for C4 at a configuration with exit hook 4 and a failing install:
the exit hook runs exactly once. -/
theorem exit_hook_zero_one_or_two_witness :
    (exitCount (((Terminate.mk (some 4) none (some (Except.error 9)) : Terminate Nat Nat).execute
            (Except.ok ())).1) = 0
      ∨ exitCount (((Terminate.mk (some 4) none (some (Except.error 9)) : Terminate Nat Nat).execute
            (Except.ok ())).1) = 1
      ∨ exitCount (((Terminate.mk (some 4) none (some (Except.error 9)) : Terminate Nat Nat).execute
            (Except.ok ())).1) = 2)
    ∧ ((Terminate.mk (some 4) none (some (Except.error 9)) : Terminate Nat Nat).at_exit = none →
        exitCount (((Terminate.mk (some 4) none (some (Except.error 9)) : Terminate Nat Nat).execute
            (Except.ok ())).1) = 0)
    ∧ ((Terminate.mk (some 4) none (some (Except.error 9)) : Terminate Nat Nat).at_exit.isSome →
        exitCount (((Terminate.mk (some 4) none (some (Except.error 9)) : Terminate Nat Nat).execute
              (Except.ok ())).1)
          = (if (Terminate.mk (some 4) none (some (Except.error 9)) : Terminate Nat Nat).install.isSome
                then 1 else 0)
              + (if installFails (Terminate.mk (some 4) none (some (Except.error 9)) : Terminate Nat Nat)
                then 0 else 1)) :=
  exit_hook_zero_one_or_two _ _

/-- C5 (amended): if an install routine is set and succeeds, then whenever an
exit hook is configured `execute` invokes the exit hook after install, then
runs the main routine, then invokes the exit hook again after main — exactly
twice in total, in that order (the events between the main call and the final
exit-hook call contain no exit-hook invocation); and when no exit hook is
configured it is never invoked. -/
theorem install_ok_exit_hook_twice (t : Terminate E A) (main : Except E Unit)
    (hi : t.install = some (Except.ok ())) :
    (∀ a, t.at_exit = some a →
      (∃ l, exitCount l = 0
        ∧ (t.execute main).1
            = Event.installCalled :: Event.exitHookCalled a :: Event.mainCalled
                :: (l ++ [Event.exitHookCalled a]))
      ∧ exitCount (t.execute main).1 = 2)
    ∧ (t.at_exit = none → exitCount (t.execute main).1 = 0) := by
  obtain ⟨ae, oe, ins⟩ := t
  simp only [Terminate.install] at hi
  subst hi
  constructor
  · intro a ha
    simp only [Terminate.at_exit] at ha
    subst ha
    constructor
    · cases oe with
      | none =>
          exact ⟨[], rfl, by
            simp [Terminate.execute, Terminate.phaseWrap]⟩
      | some f =>
          cases main with
          | error e₂ =>
              exact ⟨[Event.onErrorCalled e₂], rfl, by
                simp [Terminate.execute, Terminate.phaseWrap]⟩
          | ok u =>
              exact ⟨[], rfl, by
                simp [Terminate.execute, Terminate.phaseWrap]⟩
    · cases oe <;> cases main <;>
        simp [Terminate.execute, Terminate.phaseWrap, exitCount, isExitEvent,
          List.countP_cons, List.countP_append]
  · intro ha
    simp only [Terminate.at_exit] at ha
    subst ha
    cases oe <;> cases main <;>
      simp [Terminate.execute, Terminate.phaseWrap, exitCount, isExitEvent,
        List.countP_cons, List.countP_append]

/-- Witness for C5 (amended): install succeeds, exit hook 6 configured, main
fails with 2 under a transform adding 1. -/
theorem install_ok_exit_hook_twice_witness :
    (∃ l, exitCount l = 0
      ∧ ((Terminate.mk (some 6) (some (fun e => e + 1)) (some (Except.ok ())) : Terminate Nat Nat).execute
            (Except.error 2)).1
          = Event.installCalled :: Event.exitHookCalled 6 :: Event.mainCalled
              :: (l ++ [Event.exitHookCalled 6]))
    ∧ exitCount (((Terminate.mk (some 6) (some (fun e => e + 1)) (some (Except.ok ())) : Terminate Nat Nat).execute
          (Except.error 2)).1) = 2 :=
  (install_ok_exit_hook_twice _ _ rfl).1 6 rfl

/-- C5 as stated is false: with a succeeding install routine and no exit hook
configured, the exit hook is invoked zero times, not exactly twice. -/
theorem install_ok_exit_hook_not_twice :
    (Terminate.mk none none (some (Except.ok ())) : Terminate Nat Nat).install
        = some (Except.ok ())
    ∧ exitCount (((Terminate.mk none none (some (Except.ok ())) : Terminate Nat Nat).execute
          (Except.ok ())).1) ≠ 2 :=
  ⟨rfl, by decide⟩

/-- C6: for every phase-level error (from the install routine or the main
routine), when the error-transform hook is set it is applied to that error
before the error is returned and before the exit hook runs for that phase (the
`onErrorCalled` event precedes the phase's exit-hook events in the trace), and
when it is unset the original error passes through unchanged. -/
theorem on_error_transform_per_phase (t : Terminate E A) (main : Except E Unit) :
    (∀ e f, t.install = some (Except.error e) → t.on_error = some f →
        (t.execute main).1
            = Event.installCalled :: Event.onErrorCalled e :: exitEvsOf t
        ∧ (t.execute main).2 = Except.error (f e))
    ∧ (∀ e, t.install = some (Except.error e) → t.on_error = none →
        (t.execute main).2 = Except.error e)
    ∧ (∀ e f, installFails t = false → main = Except.error e →
        t.on_error = some f →
        (∃ pre, (t.execute main).1
            = pre ++ Event.mainCalled :: Event.onErrorCalled e :: exitEvsOf t)
        ∧ (t.execute main).2 = Except.error (f e))
    ∧ (∀ e, installFails t = false → main = Except.error e → t.on_error = none →
        (t.execute main).2 = Except.error e) := by
  obtain ⟨ae, oe, ins⟩ := t
  refine ⟨?_, ?_, ?_, ?_⟩
  · intro e f hins hoe
    simp only [Terminate.install] at hins
    simp only [Terminate.on_error] at hoe
    subst hins
    subst hoe
    cases ae <;> simp [Terminate.execute, Terminate.phaseWrap, exitEvsOf]
  · intro e hins hoe
    simp only [Terminate.install] at hins
    simp only [Terminate.on_error] at hoe
    subst hins
    subst hoe
    cases ae <;> simp [Terminate.execute, Terminate.phaseWrap]
  · intro e f hfail hmain hoe
    simp only [Terminate.on_error] at hoe
    subst hoe
    subst hmain
    rcases ins with _ | (e' | ⟨⟩)
    · constructor
      · exact ⟨[], by cases ae <;>
          simp [Terminate.execute, Terminate.phaseWrap, exitEvsOf]⟩
      · cases ae <;> simp [Terminate.execute, Terminate.phaseWrap]
    · simp [installFails] at hfail
    · constructor
      · cases ae with
        | none =>
            exact ⟨[Event.installCalled], by
              simp [Terminate.execute, Terminate.phaseWrap, exitEvsOf]⟩
        | some a =>
            exact ⟨[Event.installCalled, Event.exitHookCalled a], by
              simp [Terminate.execute, Terminate.phaseWrap, exitEvsOf]⟩
      · cases ae <;> simp [Terminate.execute, Terminate.phaseWrap]
  · intro e hfail hmain hoe
    simp only [Terminate.on_error] at hoe
    subst hoe
    subst hmain
    rcases ins with _ | (e' | ⟨⟩)
    · cases ae <;> simp [Terminate.execute, Terminate.phaseWrap]
    · simp [installFails] at hfail
    · cases ae <;> simp [Terminate.execute, Terminate.phaseWrap]

/-- Witness for C6: install fails with 4 under the transform multiplying by
10 and exit hook 1; the transform event precedes the exit-hook event and the
returned error is the transformed one. -/
theorem on_error_transform_per_phase_witness :
    ((Terminate.mk (some 1) (some (fun e => e * 10)) (some (Except.error 4)) : Terminate Nat Nat).execute
          (Except.ok ())).1
        = Event.installCalled :: Event.onErrorCalled 4
            :: exitEvsOf (Terminate.mk (some 1) (some (fun e => e * 10))
                (some (Except.error 4)) : Terminate Nat Nat)
    ∧ ((Terminate.mk (some 1) (some (fun e => e * 10)) (some (Except.error 4)) : Terminate Nat Nat).execute
          (Except.ok ())).2
        = Except.error 40 :=
  (on_error_transform_per_phase _ (Except.ok ())).1 4 (fun e => e * 10) rfl rfl

/-- C7: if no install routine is set, `execute` invokes only the main routine
(the trace starts with the main call and contains no install call) and makes
at most one exit-hook call, which occurs after main. -/
theorem no_install_main_only (t : Terminate E A) (main : Except E Unit)
    (h : t.install = none) :
    (∃ l, (t.execute main).1 = Event.mainCalled :: l)
    ∧ exitCount (t.execute main).1 ≤ 1
    ∧ Event.installCalled ∉ (t.execute main).1 := by
  obtain ⟨ae, oe, ins⟩ := t
  simp only [Terminate.install] at h
  subst h
  refine ⟨⟨_, rfl⟩, ?_, ?_⟩
  · cases ae <;> cases oe <;> cases main <;>
      simp [Terminate.execute, Terminate.phaseWrap, exitCount, isExitEvent,
        List.countP_cons, List.countP_append]
  · cases ae <;> cases oe <;> cases main <;>
      simp [Terminate.execute, Terminate.phaseWrap]

/-- Witness for C7: no install routine, exit hook 3 configured, main
succeeds. -/
theorem no_install_main_only_witness :
    (∃ l, ((Terminate.mk (some 3) none none : Terminate Nat Nat).execute
          (Except.ok ())).1 = Event.mainCalled :: l)
    ∧ exitCount (((Terminate.mk (some 3) none none : Terminate Nat Nat).execute
          (Except.ok ())).1) ≤ 1
    ∧ Event.installCalled
        ∉ ((Terminate.mk (some 3) none none : Terminate Nat Nat).execute
            (Except.ok ())).1 :=
  no_install_main_only _ _ rfl

/-- C8: `execute` never fails on its own: it returns `Ok(())` exactly when the
configured install routine (if any) and the main routine both succeed, and any
error it returns is an error value produced by install or by main, possibly
transformed by the error-transform hook. -/
theorem execute_error_provenance (t : Terminate E A) (main : Except E Unit) :
    ((t.execute main).2 = Except.ok ()
      ↔ ((t.install = none ∨ t.install = some (Except.ok ()))
          ∧ main = Except.ok ()))
    ∧ ∀ e', (t.execute main).2 = Except.error e' →
        (∃ e, t.install = some (Except.error e)
            ∧ e' = transformWith t.on_error e)
        ∨ ∃ e, main = Except.error e ∧ e' = transformWith t.on_error e := by
  obtain ⟨ae, oe, ins⟩ := t
  constructor
  · cases ae <;> cases oe <;> rcases ins with _ | (e | ⟨⟩) <;>
      rcases main with e₂ | ⟨⟩ <;>
      simp [Terminate.execute, Terminate.phaseWrap]
  · intro e' he'
    cases ae <;> cases oe <;> rcases ins with _ | (e | ⟨⟩) <;>
      rcases main with e₂ | ⟨⟩ <;>
      simp_all [Terminate.execute, Terminate.phaseWrap, transformWith]

/-- Witness for C8 at a configuration whose install succeeds and whose main
routine succeeds: the result is `Ok(())`, matching the iff. -/
theorem execute_error_provenance_witness :
    (((Terminate.mk (some 2) none (some (Except.ok ())) : Terminate Nat Nat).execute
          (Except.ok ())).2 = Except.ok ()
      ↔ (((Terminate.mk (some 2) none (some (Except.ok ())) : Terminate Nat Nat).install = none
            ∨ (Terminate.mk (some 2) none (some (Except.ok ())) : Terminate Nat Nat).install
                = some (Except.ok ()))
          ∧ (Except.ok () : Except Nat Unit) = Except.ok ())) :=
  (execute_error_provenance _ _).1

end Futility
